import Mathlib

/-!
Shallow embedding of the meeting-recording app's local persistence and
playback-session core (storage utilities, review-screen handlers, the
record-screen stop/finalize step, and the synthetic waveform generator).

Conventions of the embedding:
* timestamps (`Date.now()`, `new Date().toISOString()` at millisecond
  precision) are modelled as natural numbers (milliseconds since epoch);
* the single AsyncStorage value under the "saved_recordings" key is
  modelled at two levels: the raw blob level (present / absent / failing
  read, with an abstract JSON parse) and the deserialized collection
  level (a `List SavedRecording`);
* the device filesystem is modelled as a predicate `String → Bool`
  (does a file exist at this URI);
* external outcomes (a filesystem copy or delete succeeding or
  throwing, a storage write succeeding or throwing) are passed in as
  explicit parameters, since the code catches those exceptions.
-/

namespace MeetingRec

/-- One actionable point, as produced by the extraction API and stored on a
recording (`ActionablePoint` shape used throughout the review screen). -/
structure ActionablePoint where
  id : String
  title : String
  description : String
  priority : String
  category : Option String := none
  dueDate : Option String := none
  assignee : Option String := none
  status : Option String := none
deriving DecidableEq, Repr

/-- The `transcription` field shape stored on a `SavedRecording`
(`{fullText, words, bullets, summary: {bullets}, topics}`). -/
structure Transcription where
  fullText : String
  words : List String := []
  bullets : List String := []
  summaryBullets : List String := []
  topics : List String := []
deriving DecidableEq, Repr

/-- The persisted `SavedRecording` record of `utils/storage`.  The review
screen additionally writes an optional `actionablePoints` list onto the
stored objects, so it is part of the persisted shape. -/
structure SavedRecording where
  id : String
  title : String
  audioUri : String
  audioDuration : Nat
  createdAt : Nat
  transcription : Option Transcription := none
  actionablePoints : Option (List ActionablePoint) := none
deriving DecidableEq, Repr

/-- The caller-supplied part of a recording
(`Omit<SavedRecording, 'id' | 'createdAt'>`). -/
structure RecordingData where
  title : String
  audioUri : String
  audioDuration : Nat
  transcription : Option Transcription := none
  actionablePoints : Option (List ActionablePoint) := none
deriving DecidableEq, Repr

/-- Decimal string of a natural number: the embedding of JavaScript
`n.toString()` for the integer returned by `Date.now()`. -/
def natToDecimalString (n : Nat) : String :=
  if n = 0 then "0" else ((Nat.digits 10 n).map Nat.digitChar).reverse.asString

/-- `saveRecording`, record construction part: `id = Date.now().toString()`
and `createdAt = new Date().toISOString()`, both taken from the single
current clock reading `now` (milliseconds). -/
def mkSavedRecording (data : RecordingData) (now : Nat) : SavedRecording :=
  { id := natToDecimalString now
    createdAt := now
    title := data.title
    audioUri := data.audioUri
    audioDuration := data.audioDuration
    transcription := data.transcription
    actionablePoints := data.actionablePoints }

/-- `saveRecording` at the collection level: builds the record, prepends it
to the stored collection (`[savedRecording, ...existingRecordings]`) and
returns the new record together with the rewritten collection. -/
def saveRecording (data : RecordingData) (now : Nat)
    (stored : List SavedRecording) : SavedRecording × List SavedRecording :=
  let r := mkSavedRecording data now
  (r, r :: stored)

/-- Insert a record into a list that is sorted by `createdAt` descending,
keeping it sorted: the building block used to model the JavaScript
`recordings.sort((a, b) => time(b.createdAt) - time(a.createdAt))` call. -/
def insertByCreatedAt (r : SavedRecording) :
    List SavedRecording → List SavedRecording
  | [] => [r]
  | x :: xs =>
      if x.createdAt ≤ r.createdAt then r :: x :: xs
      else x :: insertByCreatedAt r xs

/-- Sort a recording collection by `createdAt` descending (the comparator
`(a, b) => time(b.createdAt) - time(a.createdAt)` of `getRecordings`). -/
def sortByCreatedAtDesc : List SavedRecording → List SavedRecording
  | [] => []
  | x :: xs => insertByCreatedAt x (sortByCreatedAtDesc xs)

/-- `getRecordings` at the collection level: the stored collection is
returned sorted by `createdAt` descending. -/
def getRecordings (stored : List SavedRecording) : List SavedRecording :=
  sortByCreatedAtDesc stored

/-- Result of `AsyncStorage.getItem('saved_recordings')`: the key may be
absent (`null`), the read itself may throw, or a raw string is returned. -/
inductive StorageRead where
  | missing
  | failure
  | value (raw : String)
deriving DecidableEq, Repr

/-- `getRecordings` at the raw blob level.  `parse` is the external
`JSON.parse` primitive (returning `.error` when it would throw).  The
function mirrors the source: a failing read is caught and yields `[]`,
an absent value yields `[]`, an unparseable value throws inside the
`try` and the `catch` yields `[]`, and a parsed collection is sorted by
`createdAt` descending. -/
def getRecordingsFromStore
    (parse : String → Except String (List SavedRecording)) :
    StorageRead → List SavedRecording
  | .missing => []
  | .failure => []
  | .value raw =>
      match parse raw with
      | .ok l => sortByCreatedAtDesc l
      | .error _ => []

/-- `deleteRecording`: re-reads the collection, best-effort-deletes the
matching record's audio file (`FileSystem.deleteAsync(uri, {idempotent:
true})`, wrapped in its own try/catch so a failure only warns), then
rewrites the collection without the record.  `files` is the filesystem
(existence predicate); `fileDeleteOk` is whether the delete call
succeeded (with `idempotent: true` a missing file still succeeds). -/
def deleteRecording (id : String) (stored : List SavedRecording)
    (files : String → Bool) (fileDeleteOk : Bool) :
    List SavedRecording × (String → Bool) :=
  let recordings := getRecordings stored
  let files2 :=
    match recordings.find? (fun r => r.id == id) with
    | some r =>
        if fileDeleteOk then fun u => if u == r.audioUri then false else files u
        else files
    | none => files
  (recordings.filter (fun r => r.id != id), files2)

/-- The navigation payload of the record screen's `stop` step
(`navigation.navigate('Review', { audioUri, audioDuration, ... })`). -/
structure StopNavigation where
  audioUri : String
  audioDuration : Nat
deriving DecidableEq, Repr

/-- The unique permanent location chosen by `stop`:
`${FileSystem.documentDirectory}recording_${Date.now()}.m4a`. -/
def permanentUriFor (timestamp : Nat) : String :=
  "file:///documents/recording_" ++ natToDecimalString timestamp ++ ".m4a"

/-- The copy-to-permanent-storage block of `stop`: the `try` block copies
the temporary capture file to the permanent location and then deletes the
temporary file; if either step throws, the `catch` falls back to the
temporary locator unchanged.  `copyOk` / `tempDeleteOk` are the external
outcomes of the two filesystem calls. -/
def finalizeRecordingUri (tempUri : String) (timestamp : Nat)
    (copyOk tempDeleteOk : Bool) : String :=
  if copyOk then
    if tempDeleteOk then permanentUriFor timestamp else tempUri
  else tempUri

/-- The `stop` step of a recording session, from the point where the
capture has been stopped and yielded `tempUri`: finalize the file (with
fallback), probe the resulting file for its duration (`probedDuration`,
an external playback-primitive reading), and navigate onward with the
resulting locator and duration. -/
def stop (tempUri : String) (timestamp : Nat) (copyOk tempDeleteOk : Bool)
    (probedDuration : Nat) : StopNavigation :=
  { audioUri := finalizeRecordingUri tempUri timestamp copyOk tempDeleteOk
    audioDuration := probedDuration }

/-- The playback-status fields `togglePlayPause` reads from
`sound.getStatusAsync()` (`positionMillis || 0` and `durationMillis || 0`
defaulting to zero is folded into the `Nat` fields). -/
structure SoundStatus where
  isPlaying : Bool
  positionMillis : Nat
  durationMillis : Nat
  didJustFinish : Bool
deriving DecidableEq, Repr

/-- `togglePlayPause`: if playing, pause; otherwise, when the track just
finished or the position is at-or-past `duration - 100`, first seek to
position 0, then start playback.  JavaScript computes `duration - 100`
possibly negative (in which case `position >= duration - 100` is always
true); `Nat` truncated subtraction yields `0` there, and
`position ≥ 0` is likewise always true, so the branch condition agrees. -/
def togglePlayPause (s : SoundStatus) : SoundStatus :=
  if s.isPlaying then { s with isPlaying := false }
  else
    let s2 := if s.didJustFinish || decide (s.durationMillis - 100 ≤ s.positionMillis)
      then { s with positionMillis := 0 } else s
    { s2 with isPlaying := true }

/-- The response of the actionable-points extraction API, as inspected by
`extractActionablePoints` (`data.ok && data.actionablePoints`). -/
inductive ExtractResponse where
  | ok (points : List ActionablePoint)
  | err (msg : String)
deriving DecidableEq, Repr

/-- `extractActionablePoints`, state effect on the in-memory list: a
successful extraction replaces the list wholesale
(`setActionablePoints(data.actionablePoints)`); a failed one is caught
and leaves the list unchanged. -/
def extractActionablePoints (resp : ExtractResponse)
    (current : List ActionablePoint) : List ActionablePoint :=
  match resp with
  | .ok points => points
  | .err _ => current

/-- The empty-list normalization applied before every persistent write of
an actionable-point list: `points.length > 0 ? points : undefined`. -/
def normalizePoints (points : List ActionablePoint) :
    Option (List ActionablePoint) :=
  if 0 < points.length then some points else none

/-- `handleSave`, construction of the `recordingData` object handed to
`saveRecording`: default title when the trimmed title is empty, the
transcription shape derived from the server result, and the
actionable-point list normalized to `undefined` when empty. -/
def handleSaveData (title : String) (dateLabel : String)
    (audioUri : String) (audioDuration : Nat)
    (serverResult : Option Transcription)
    (actionablePoints : List ActionablePoint) : RecordingData :=
  { title := if title.trim = "" then "Recording " ++ dateLabel else title.trim
    audioUri := audioUri
    audioDuration := audioDuration
    transcription := serverResult
    actionablePoints := normalizePoints actionablePoints }

/-- The write-back step of `deleteActionablePoint`: locate the first
stored record whose `(audioUri, audioDuration)` pair matches
(`recordings.findIndex(...)`), set its `actionablePoints` to the
normalized updated list, and report whether a record was found. -/
def updateFirstMatch (audioUri : String) (audioDuration : Nat)
    (updated : List ActionablePoint) :
    List SavedRecording → List SavedRecording × Bool
  | [] => ([], false)
  | r :: rs =>
      if r.audioUri == audioUri && r.audioDuration == audioDuration then
        ({ r with actionablePoints := normalizePoints updated } :: rs, true)
      else
        let p := updateFirstMatch audioUri audioDuration updated rs
        (r :: p.1, p.2)

/-- Everything `deleteActionablePoint` leaves behind: the in-memory list,
the stored collection, whether a storage write happened, and whether a
user-facing error alert was raised. -/
structure DeletePointResult where
  points : List ActionablePoint
  store : List SavedRecording
  storeWritten : Bool
  userAlert : Bool
deriving Repr

/-- `deleteActionablePoint` (the confirmed-delete branch): filter the
point out of the local list; when the screen shows a saved recording
(`isSavedRecording && currentServerResult`), re-read the collection, find
the owning record by `(audioUri, audioDuration)` and rewrite the
collection with the normalized remaining points.  A miss only logs; a
failing storage write (`writeOk = false`) is caught and only logs; in
every one of these paths the local removal stands and no user-facing
alert is raised. -/
def deleteActionablePoint (pointId : String)
    (points : List ActionablePoint)
    (isSavedRecording hasServerResult : Bool)
    (audioUri : String) (audioDuration : Nat)
    (stored : List SavedRecording) (writeOk : Bool) : DeletePointResult :=
  let updated := points.filter (fun p => p.id != pointId)
  if isSavedRecording && hasServerResult then
    let recordings := getRecordings stored
    let p := updateFirstMatch audioUri audioDuration updated recordings
    if p.2 then
      if writeOk then
        { points := updated, store := p.1, storeWritten := true, userAlert := false }
      else
        { points := updated, store := stored, storeWritten := false, userAlert := false }
    else
      { points := updated, store := stored, storeWritten := false, userAlert := false }
  else
    { points := updated, store := stored, storeWritten := false, userAlert := false }

/-- `generateWaveformData(duration)` (duration in seconds):
`min(100, floor(duration / 0.1))` data points, each
`random() * 0.8 + 0.1`.  Numbers are modelled as exact rationals; the
random source is the external `rand`. -/
def generateWaveformData (duration : ℚ) (rand : Nat → ℚ) : List ℚ :=
  let dataPoints : Int := min 100 ⌊duration / (1 / 10 : ℚ)⌋
  (List.range dataPoints.toNat).map (fun i => rand i * (8 / 10) + 1 / 10)

/-! ### Helper lemmas -/

theorem digitChar_inj_on_fin (d e : Fin 10)
    (h : Nat.digitChar d.val = Nat.digitChar e.val) : d = e := by
  revert h
  revert d e
  decide

theorem map_digitChar_inj (l1 l2 : List Nat)
    (h1 : ∀ d ∈ l1, d < 10) (h2 : ∀ d ∈ l2, d < 10)
    (h : l1.map Nat.digitChar = l2.map Nat.digitChar) : l1 = l2 := by
  induction l1 generalizing l2 with
  | nil =>
      cases l2 with
      | nil => rfl
      | cons y ys => simp at h
  | cons x xs ih =>
      cases l2 with
      | nil => simp at h
      | cons y ys =>
          simp only [List.map_cons, List.cons.injEq] at h
          have hx : x < 10 := h1 x (by simp)
          have hy : y < 10 := h2 y (by simp)
          have hf : (⟨x, hx⟩ : Fin 10) = ⟨y, hy⟩ :=
            digitChar_inj_on_fin ⟨x, hx⟩ ⟨y, hy⟩ h.1
          have hxy : x = y := congrArg Fin.val hf
          subst hxy
          have hrest : xs = ys :=
            ih ys (fun d hd => h1 d (List.mem_cons_of_mem x hd))
              (fun d hd => h2 d (List.mem_cons_of_mem x hd)) h.2
          rw [hrest]

theorem natToDecimalString_injective :
    Function.Injective natToDecimalString := by
  intro m n h
  unfold natToDecimalString at h
  have key : ∀ k : Nat, k ≠ 0 →
      ((Nat.digits 10 k).map Nat.digitChar).reverse.asString = "0" → False := by
    intro k hk hs
    have hdata := congrArg String.data hs
    simp only [List.asString] at hdata
    have hrev : ((Nat.digits 10 k).map Nat.digitChar).reverse = ['0'] := hdata
    have hmap : (Nat.digits 10 k).map Nat.digitChar = ['0'] := by
      have := congrArg List.reverse hrev
      simpa using this
    have hdig : Nat.digits 10 k = [0] := by
      apply map_digitChar_inj
      · intro d hd; exact Nat.digits_lt_base (by norm_num) hd
      · intro d hd; simp at hd; omega
      · rw [hmap]; decide
    have : k = 0 := by
      have hof := Nat.ofDigits_digits 10 k
      rw [hdig] at hof
      simpa [Nat.ofDigits] using hof.symm
    exact hk this
  by_cases hm : m = 0 <;> by_cases hn : n = 0
  · omega
  · rw [if_pos hm, if_neg hn] at h
    exact absurd h.symm (fun hs => key n hn hs)
  · rw [if_neg hm, if_pos hn] at h
    exact absurd h (fun hs => key m hm hs)
  · rw [if_neg hm, if_neg hn] at h
    have hdata := congrArg String.data h
    simp only [List.asString] at hdata
    have hmap : (Nat.digits 10 m).map Nat.digitChar =
        (Nat.digits 10 n).map Nat.digitChar := by
      have := congrArg List.reverse hdata
      simpa using this
    have hdig : Nat.digits 10 m = Nat.digits 10 n := by
      apply map_digitChar_inj _ _ _ _ hmap
      · intro d hd; exact Nat.digits_lt_base (by norm_num) hd
      · intro d hd; exact Nat.digits_lt_base (by norm_num) hd
    exact Nat.digits_inj_iff.mp hdig

theorem insertByCreatedAt_perm (r : SavedRecording) (l : List SavedRecording) :
    List.Perm (insertByCreatedAt r l) (r :: l) := by
  induction l with
  | nil => simp [insertByCreatedAt]
  | cons x xs ih =>
      rw [insertByCreatedAt]
      by_cases hc : x.createdAt ≤ r.createdAt
      · rw [if_pos hc]
      · rw [if_neg hc]
        exact List.Perm.trans (ih.cons x) (List.Perm.swap r x xs)

theorem sortByCreatedAtDesc_perm (l : List SavedRecording) :
    List.Perm (sortByCreatedAtDesc l) l := by
  induction l with
  | nil => simp [sortByCreatedAtDesc]
  | cons x xs ih =>
      rw [sortByCreatedAtDesc]
      exact List.Perm.trans (insertByCreatedAt_perm x _) (ih.cons x)

theorem mem_sortByCreatedAtDesc {r : SavedRecording} {l : List SavedRecording} :
    r ∈ sortByCreatedAtDesc l ↔ r ∈ l :=
  (sortByCreatedAtDesc_perm l).mem_iff

theorem insertByCreatedAt_pairwise (r : SavedRecording)
    (l : List SavedRecording)
    (h : l.Pairwise (fun a b => b.createdAt ≤ a.createdAt)) :
    (insertByCreatedAt r l).Pairwise (fun a b => b.createdAt ≤ a.createdAt) := by
  induction l with
  | nil => simp [insertByCreatedAt]
  | cons x xs ih =>
      rw [insertByCreatedAt]
      rw [List.pairwise_cons] at h
      by_cases hc : x.createdAt ≤ r.createdAt
      · rw [if_pos hc]
        refine List.Pairwise.cons ?_ (List.Pairwise.cons h.1 h.2)
        intro b hb
        rcases List.mem_cons.mp hb with hbx | hbxs
        · rw [hbx]; exact hc
        · exact le_trans (h.1 b hbxs) hc
      · rw [if_neg hc]
        refine List.Pairwise.cons ?_ (ih h.2)
        intro b hb
        rcases List.mem_cons.mp ((insertByCreatedAt_perm r xs).mem_iff.mp hb) with
          hbr | hbxs
        · rw [hbr]; omega
        · exact h.1 b hbxs

theorem sortByCreatedAtDesc_pairwise (l : List SavedRecording) :
    (sortByCreatedAtDesc l).Pairwise (fun a b => b.createdAt ≤ a.createdAt) := by
  induction l with
  | nil => simp [sortByCreatedAtDesc]
  | cons x xs ih => exact insertByCreatedAt_pairwise x _ ih

/-- A sequence of `create` calls starting from a stored collection: each
call prepends its record (the state evolution of repeated
`saveRecording` calls). -/
def runCreates : List (RecordingData × Nat) → List SavedRecording →
    List SavedRecording
  | [], stored => stored
  | c :: cs, stored => runCreates cs (saveRecording c.1 c.2 stored).2

theorem runCreates_map_createdAt (cs : List (RecordingData × Nat))
    (stored : List SavedRecording) :
    (runCreates cs stored).map (fun r => r.createdAt) =
      (cs.map Prod.snd).reverse ++ stored.map (fun r => r.createdAt) := by
  induction cs generalizing stored with
  | nil => simp [runCreates]
  | cons c cs ih =>
      rw [runCreates, ih]
      simp [saveRecording, mkSavedRecording]

theorem updateFirstMatch_found_iff (audioUri : String) (dur : Nat)
    (updated : List ActionablePoint) (l : List SavedRecording) :
    (updateFirstMatch audioUri dur updated l).2 = true ↔
      ∃ r ∈ l, r.audioUri = audioUri ∧ r.audioDuration = dur := by
  induction l with
  | nil => simp [updateFirstMatch]
  | cons x xs ih =>
      rw [updateFirstMatch]
      by_cases hc : x.audioUri == audioUri && x.audioDuration == dur
      · rw [if_pos hc]
        simp only [Bool.and_eq_true, beq_iff_eq] at hc
        simp [hc.1, hc.2]
      · rw [if_neg hc]
        simp only [Bool.and_eq_true, beq_iff_eq] at hc
        simp only [List.mem_cons, exists_eq_or_imp]
        constructor
        · intro hfound
          exact Or.inr (ih.mp hfound)
        · rintro (hx | hxs)
          · exact absurd ⟨hx.1, hx.2⟩ hc
          · exact ih.mpr hxs

theorem mem_updateFirstMatch (audioUri : String) (dur : Nat)
    (updated : List ActionablePoint) (l : List SavedRecording)
    (r : SavedRecording)
    (hr : r ∈ (updateFirstMatch audioUri dur updated l).1) :
    r ∈ l ∨ r.actionablePoints = normalizePoints updated := by
  induction l with
  | nil => simp [updateFirstMatch] at hr
  | cons x xs ih =>
      rw [updateFirstMatch] at hr
      by_cases hc : x.audioUri == audioUri && x.audioDuration == dur
      · rw [if_pos hc] at hr
        rcases List.mem_cons.mp hr with hrx | hrxs
        · exact Or.inr (by rw [hrx])
        · exact Or.inl (List.mem_cons_of_mem x hrxs)
      · rw [if_neg hc] at hr
        rcases List.mem_cons.mp hr with hrx | hrxs
        · exact Or.inl (by rw [hrx]; exact List.mem_cons_self x xs)
        · rcases ih hrxs with hmem | hpts
          · exact Or.inl (List.mem_cons_of_mem x hmem)
          · exact Or.inr hpts

theorem normalizePoints_ne_some_nil (pts : List ActionablePoint) :
    normalizePoints pts ≠ some [] := by
  unfold normalizePoints
  by_cases h : 0 < pts.length
  · rw [if_pos h]
    intro he
    have : pts = [] := Option.some.inj he
    rw [this] at h
    simp at h
  · rw [if_neg h]
    exact Option.noConfusion

/-! ### Concrete demo data used by counterexamples and witnesses -/

def demoDataA : RecordingData :=
  { title := "Standup", audioUri := "file://a.m4a", audioDuration := 65000 }

def demoDataB : RecordingData :=
  { title := "Retro", audioUri := "file://b.m4a", audioDuration := 1000 }

/-! ### Claim theorems -/

/-- C1, counterexample: two distinct `saveRecording` calls that happen in
the same millisecond (`Date.now()` returns the same value for both, here
`1700000000000`) return records with the SAME `id`, refuting the claim
that any two distinct create calls return different ids even in rapid
succession. -/
theorem saveRecording_same_millisecond_id_collision :
    demoDataA ≠ demoDataB ∧
      (saveRecording demoDataA 1700000000000 []).1.id =
        (saveRecording demoDataB 1700000000000
          (saveRecording demoDataA 1700000000000 []).2).1.id := by
  exact ⟨by decide, rfl⟩

/-- C1, amended: two `saveRecording` calls whose clock readings
(`Date.now()` milliseconds) differ return records with different `id`s;
uniqueness holds exactly when the calls fall in distinct milliseconds. -/
theorem saveRecording_distinct_millis_distinct_ids
    (d1 d2 : RecordingData) (now1 now2 : Nat)
    (s1 s2 : List SavedRecording) (h : now1 ≠ now2) :
    (saveRecording d1 now1 s1).1.id ≠ (saveRecording d2 now2 s2).1.id := by
  intro he
  exact h (natToDecimalString_injective he)

/-- C1, witness for the amended theorem at two concrete timestamps. -/
theorem saveRecording_distinct_millis_distinct_ids_witness :
    (1700000000000 : Nat) ≠ 1700000000001 ∧
      (saveRecording demoDataA 1700000000000 []).1.id ≠
        (saveRecording demoDataB 1700000000001 []).1.id :=
  ⟨by decide,
    saveRecording_distinct_millis_distinct_ids demoDataA demoDataB
      1700000000000 1700000000001 [] [] (by decide)⟩

/-- C2: for every stored collection produced by a sequence of create
calls with pairwise-distinct `createdAt` timestamps, `getRecordings`
returns the records in strictly descending `createdAt` order. -/
theorem getRecordings_strictly_descending
    (calls : List (RecordingData × Nat))
    (hnodup : (calls.map Prod.snd).Nodup) :
    (getRecordings (runCreates calls [])).Pairwise
      (fun a b => b.createdAt < a.createdAt) := by
  have hsorted := sortByCreatedAtDesc_pairwise (runCreates calls [])
  have hmapnodup : ((runCreates calls []).map (fun r => r.createdAt)).Nodup := by
    rw [runCreates_map_createdAt]
    simpa using hnodup
  have hpair : (runCreates calls []).Pairwise
      (fun a b => a.createdAt ≠ b.createdAt) :=
    List.pairwise_map.mp hmapnodup
  have hpair2 : (getRecordings (runCreates calls [])).Pairwise
      (fun a b => a.createdAt ≠ b.createdAt) :=
    ((sortByCreatedAtDesc_perm (runCreates calls [])).pairwise_iff
      (fun h => h.symm)).mpr hpair
  have hcomb := hsorted.and hpair2
  exact hcomb.imp (fun h => lt_of_le_of_ne h.1 (fun he => h.2 he.symm))

/-- C2, witness: three create calls with distinct timestamps, given in
non-sorted order, listed strictly descending by `createdAt`. -/
theorem getRecordings_strictly_descending_witness :
    ([(demoDataA, 5), (demoDataB, 42), (demoDataA, 17)].map Prod.snd).Nodup ∧
      (getRecordings
        (runCreates [(demoDataA, 5), (demoDataB, 42), (demoDataA, 17)] [])).Pairwise
        (fun a b => b.createdAt < a.createdAt) :=
  ⟨by decide,
    getRecordings_strictly_descending
      [(demoDataA, 5), (demoDataB, 42), (demoDataA, 17)] (by decide)⟩

/-- C3: `getRecordings` on a store whose blob is absent, whose read
fails, or whose blob does not parse, returns `[]`; as a total function
into `List SavedRecording` it never propagates an error to the caller. -/
theorem getRecordingsFromStore_lenient
    (parse : String → Except String (List SavedRecording))
    (raw msg : String) (hraw : parse raw = .error msg) :
    getRecordingsFromStore parse .missing = [] ∧
      getRecordingsFromStore parse .failure = [] ∧
      getRecordingsFromStore parse (.value raw) = [] := by
  refine ⟨rfl, rfl, ?_⟩
  simp [getRecordingsFromStore, hraw]

/-- C3, witness: a parse primitive that rejects a concrete malformed
blob, on which all three degraded reads return `[]`. -/
theorem getRecordingsFromStore_lenient_witness :
    (fun _ : String => (Except.error "SyntaxError" :
        Except String (List SavedRecording))) "not json" =
      Except.error "SyntaxError" ∧
      getRecordingsFromStore
        (fun _ => Except.error "SyntaxError") StorageRead.missing = [] ∧
      getRecordingsFromStore
        (fun _ => Except.error "SyntaxError") StorageRead.failure = [] ∧
      getRecordingsFromStore
        (fun _ => Except.error "SyntaxError") (StorageRead.value "not json") = [] := by
  refine ⟨rfl, ?_⟩
  exact getRecordingsFromStore_lenient (fun _ => Except.error "SyntaxError")
    "not json" "SyntaxError" rfl

/-- C4: after `deleteRecording id` on a collection containing a record
with that id, the listed collection no longer contains the id, and the
found record's audio file has been deleted whenever the file-delete call
succeeded.  The record removal is stated for an arbitrary `fileDeleteOk`
and an arbitrary filesystem (in particular one where the file is already
absent), so a missing file or a failing delete never aborts it. -/
theorem deleteRecording_removes_record_and_file
    (id : String) (stored : List SavedRecording)
    (files : String → Bool) (fileDeleteOk : Bool)
    (hmem : ∃ r ∈ stored, r.id = id) :
    (∀ r ∈ getRecordings (deleteRecording id stored files fileDeleteOk).1,
      r.id ≠ id) ∧
      (∀ r, (getRecordings stored).find? (fun x => x.id == id) = some r →
        fileDeleteOk = true →
        (deleteRecording id stored files fileDeleteOk).2 r.audioUri = false) := by
  constructor
  · intro r hr
    have hr2 : r ∈ (getRecordings stored).filter (fun x => x.id != id) :=
      mem_sortByCreatedAtDesc.mp hr
    have := List.of_mem_filter hr2
    simpa using this
  · intro r hfind hok
    subst hok
    have hrw : (deleteRecording id stored files true).2 =
        match (getRecordings stored).find? (fun x => x.id == id) with
        | some x => fun u => if u == x.audioUri then false else files u
        | none => files := rfl
    rw [hrw, hfind]
    simp

/-- C4, witness: deleting the only record of a one-record collection at a
concrete filesystem. -/
theorem deleteRecording_removes_record_and_file_witness :
    (∃ r ∈ [mkSavedRecording demoDataA 5],
        r.id = (mkSavedRecording demoDataA 5).id) ∧
      ((∀ r ∈ getRecordings
          (deleteRecording (mkSavedRecording demoDataA 5).id
            [mkSavedRecording demoDataA 5] (fun _ => true) true).1,
          r.id ≠ (mkSavedRecording demoDataA 5).id) ∧
        (∀ r, (getRecordings [mkSavedRecording demoDataA 5]).find?
              (fun x => x.id == (mkSavedRecording demoDataA 5).id) = some r →
          true = true →
          (deleteRecording (mkSavedRecording demoDataA 5).id
            [mkSavedRecording demoDataA 5] (fun _ => true) true).2
            r.audioUri = false)) :=
  ⟨⟨mkSavedRecording demoDataA 5, List.mem_singleton.mpr rfl, rfl⟩,
    deleteRecording_removes_record_and_file (mkSavedRecording demoDataA 5).id
      [mkSavedRecording demoDataA 5] (fun _ => true) true
      ⟨mkSavedRecording demoDataA 5, List.mem_singleton.mpr rfl, rfl⟩⟩

/-- C5: if copying the temporary capture file to the permanent location
fails, the stop step falls back to the temporary locator unchanged and
still completes, navigating onward with that locator and the probed
duration. -/
theorem stop_copy_failure_falls_back
    (tempUri : String) (timestamp : Nat) (tempDeleteOk : Bool)
    (probedDuration : Nat) :
    stop tempUri timestamp false tempDeleteOk probedDuration =
      { audioUri := tempUri, audioDuration := probedDuration } := by
  simp [stop, finalizeRecordingUri]

/-- C6: for a loaded, currently-paused track, `togglePlayPause` seeks to
position 0 before starting playback exactly when the track just finished
or the position is at-or-past `duration - 100`; otherwise it resumes
from the current position.  In both cases playback starts. -/
theorem togglePlayPause_replay_from_start (s : SoundStatus)
    (hp : s.isPlaying = false) :
    ((s.didJustFinish = true ∨ s.durationMillis - 100 ≤ s.positionMillis) →
      (togglePlayPause s).positionMillis = 0 ∧
        (togglePlayPause s).isPlaying = true) ∧
      ((s.didJustFinish = false ∧ s.positionMillis < s.durationMillis - 100) →
        (togglePlayPause s).positionMillis = s.positionMillis ∧
          (togglePlayPause s).isPlaying = true) := by
  constructor
  · intro h
    have hif : s.didJustFinish = true ∨
        s.durationMillis ≤ s.positionMillis + 100 := by
      rcases h with hfin | hpos
      · exact Or.inl hfin
      · exact Or.inr (by omega)
    simp [togglePlayPause, hp, hif]
  · rintro ⟨hfin, hpos⟩
    have hif : ¬(s.didJustFinish = true ∨
        s.durationMillis ≤ s.positionMillis + 100) := by
      rw [hfin]
      simp only [Bool.false_eq_true, false_or, not_le]
      omega
    simp [togglePlayPause, hp, hif]

/-- C6, witness: a paused, just-finished track at a stale position
restarts from 0; a paused mid-track position resumes unchanged. -/
theorem togglePlayPause_replay_from_start_witness :
    ({ isPlaying := false, positionMillis := 9950, durationMillis := 10000,
        didJustFinish := true : SoundStatus }.isPlaying = false) ∧
      (togglePlayPause
        { isPlaying := false, positionMillis := 9950, durationMillis := 10000,
          didJustFinish := true }).positionMillis = 0 ∧
      (togglePlayPause
        { isPlaying := false, positionMillis := 9950, durationMillis := 10000,
          didJustFinish := true }).isPlaying = true ∧
      (togglePlayPause
        { isPlaying := false, positionMillis := 5000, durationMillis := 10000,
          didJustFinish := false }).positionMillis = 5000 := by
  have h1 := togglePlayPause_replay_from_start
    { isPlaying := false, positionMillis := 9950, durationMillis := 10000,
      didJustFinish := true } rfl
  have h2 := togglePlayPause_replay_from_start
    { isPlaying := false, positionMillis := 5000, durationMillis := 10000,
      didJustFinish := false } rfl
  have ha := h1.1 (Or.inl rfl)
  have hb := h2.2 ⟨rfl, by decide⟩
  exact ⟨rfl, ha.1, ha.2, hb.1⟩

/-- C7: removing an actionable point always removes it from the local
in-memory list and never raises a user-facing alert; when the recording
is not a saved one (or has no server result) the stored collection is
untouched; when no stored record matches the `(audioUri, audioDuration)`
pair the stored collection is likewise untouched; and when the recording
is saved, the write succeeds and a matching record exists, the removal
is persisted by rewriting the collection with the first matching record
updated. -/
theorem deleteActionablePoint_spec (pointId : String)
    (points : List ActionablePoint) (isSavedRecording hasServerResult : Bool)
    (audioUri : String) (audioDuration : Nat)
    (stored : List SavedRecording) (writeOk : Bool) :
    (deleteActionablePoint pointId points isSavedRecording hasServerResult
        audioUri audioDuration stored writeOk).points =
      points.filter (fun p => p.id != pointId) ∧
    (deleteActionablePoint pointId points isSavedRecording hasServerResult
        audioUri audioDuration stored writeOk).userAlert = false ∧
    ((isSavedRecording && hasServerResult) = false →
      (deleteActionablePoint pointId points isSavedRecording hasServerResult
          audioUri audioDuration stored writeOk).store = stored ∧
        (deleteActionablePoint pointId points isSavedRecording hasServerResult
          audioUri audioDuration stored writeOk).storeWritten = false) ∧
    ((¬ ∃ r ∈ stored, r.audioUri = audioUri ∧ r.audioDuration = audioDuration) →
      (deleteActionablePoint pointId points isSavedRecording hasServerResult
          audioUri audioDuration stored writeOk).store = stored ∧
        (deleteActionablePoint pointId points isSavedRecording hasServerResult
          audioUri audioDuration stored writeOk).storeWritten = false) ∧
    ((isSavedRecording && hasServerResult) = true → writeOk = true →
      (∃ r ∈ stored, r.audioUri = audioUri ∧ r.audioDuration = audioDuration) →
      (deleteActionablePoint pointId points isSavedRecording hasServerResult
          audioUri audioDuration stored writeOk).storeWritten = true ∧
        (deleteActionablePoint pointId points isSavedRecording hasServerResult
          audioUri audioDuration stored writeOk).store =
          (updateFirstMatch audioUri audioDuration
            (points.filter (fun p => p.id != pointId))
            (getRecordings stored)).1) := by
  unfold deleteActionablePoint
  by_cases hsaved : (isSavedRecording && hasServerResult) = true
  · rw [hsaved]
    simp only [if_true]
    by_cases hfound : (updateFirstMatch audioUri audioDuration
        (points.filter (fun p => p.id != pointId)) (getRecordings stored)).2 = true
    · rw [hfound]
      simp only [if_true]
      by_cases hw : writeOk = true
      · subst hw
        refine ⟨rfl, rfl, ?_, ?_, ?_⟩
        · intro hfalse; exact absurd hfalse (by simp)
        · intro hno
          exfalso
          apply hno
          have := (updateFirstMatch_found_iff audioUri audioDuration
            (points.filter (fun p => p.id != pointId))
            (getRecordings stored)).mp hfound
          obtain ⟨r, hrmem, hr⟩ := this
          exact ⟨r, mem_sortByCreatedAtDesc.mp hrmem, hr⟩
        · intro _ _ _; exact ⟨rfl, rfl⟩
      · have hwf : writeOk = false := by
          cases writeOk
          · rfl
          · exact absurd rfl hw
        subst hwf
        refine ⟨rfl, rfl, ?_, ?_, ?_⟩
        · intro hfalse; exact absurd hfalse (by simp)
        · intro _; exact ⟨rfl, rfl⟩
        · intro _ hfalse; exact absurd hfalse (by simp)
    · have hff : (updateFirstMatch audioUri audioDuration
          (points.filter (fun p => p.id != pointId)) (getRecordings stored)).2 =
          false := by
        cases hmatch : (updateFirstMatch audioUri audioDuration
            (points.filter (fun p => p.id != pointId)) (getRecordings stored)).2
        · rfl
        · exact absurd hmatch hfound
      rw [hff]
      refine ⟨rfl, rfl, ?_, ?_, ?_⟩
      · intro hfalse; exact absurd hfalse (by simp)
      · intro _; exact ⟨rfl, rfl⟩
      · intro _ _ hex
        exfalso
        apply hfound
        rw [updateFirstMatch_found_iff]
        obtain ⟨r, hrmem, hr⟩ := hex
        exact ⟨r, mem_sortByCreatedAtDesc.mpr hrmem, hr⟩
  · have hsf : (isSavedRecording && hasServerResult) = false := by
      cases h : (isSavedRecording && hasServerResult)
      · rfl
      · exact absurd h hsaved
    rw [hsf]
    refine ⟨rfl, rfl, fun _ => ⟨rfl, rfl⟩, fun _ => ⟨rfl, rfl⟩, ?_⟩
    intro hfalse
    exact absurd hfalse (by simp)

/-- C7, witness: removing a point of an unsaved recording at concrete
inputs succeeds locally without any storage write. -/
theorem deleteActionablePoint_spec_witness :
    (false && false) = false ∧
      (deleteActionablePoint "p1"
        [{ id := "p1", title := "t", description := "d", priority := "high" }]
        false false "file://a.m4a" 65000 [] true).points =
        ([{ id := "p1", title := "t", description := "d", priority := "high" }].filter
          (fun p => p.id != "p1")) ∧
      (deleteActionablePoint "p1"
        [{ id := "p1", title := "t", description := "d", priority := "high" }]
        false false "file://a.m4a" 65000 [] true).store = [] ∧
      (deleteActionablePoint "p1"
        [{ id := "p1", title := "t", description := "d", priority := "high" }]
        false false "file://a.m4a" 65000 [] true).storeWritten = false := by
  have h := deleteActionablePoint_spec "p1"
    [{ id := "p1", title := "t", description := "d", priority := "high" }]
    false false "file://a.m4a" 65000 [] true
  have hbranch := h.2.2.1 rfl
  exact ⟨rfl, h.1, hbranch.1, hbranch.2⟩

/-- C8: every write of an actionable-point list to persistent storage
normalizes the empty list to the absent state: the normalization itself
never produces `some []`, the record built by `handleSave` never carries
`some []`, and both the save path and the post-removal sync path keep
the stored collection free of records with an empty actionable-point
list. -/
theorem persisted_actionablePoints_never_empty
    (title dateLabel audioUri : String) (audioDuration : Nat)
    (serverResult : Option Transcription) (pts : List ActionablePoint)
    (now : Nat) (stored : List SavedRecording)
    (hstored : ∀ r ∈ stored, r.actionablePoints ≠ some [])
    (pointId : String) (points : List ActionablePoint)
    (isSaved hasResult : Bool) (uri2 : String) (dur2 : Nat) (writeOk : Bool) :
    (handleSaveData title dateLabel audioUri audioDuration serverResult
        pts).actionablePoints ≠ some [] ∧
      (∀ r ∈ (saveRecording
          (handleSaveData title dateLabel audioUri audioDuration serverResult pts)
          now stored).2, r.actionablePoints ≠ some []) ∧
      (∀ r ∈ (deleteActionablePoint pointId points isSaved hasResult uri2 dur2
          stored writeOk).store, r.actionablePoints ≠ some []) := by
  refine ⟨normalizePoints_ne_some_nil pts, ?_, ?_⟩
  · intro r hr
    rcases List.mem_cons.mp hr with hnew | hold
    · rw [hnew]
      exact normalizePoints_ne_some_nil pts
    · exact hstored r hold
  · intro r hr
    unfold deleteActionablePoint at hr
    by_cases hsaved : (isSaved && hasResult) = true
    · rw [hsaved] at hr
      simp only [if_true] at hr
      by_cases hfound : (updateFirstMatch uri2 dur2
          (points.filter (fun p => p.id != pointId)) (getRecordings stored)).2 = true
      · rw [hfound] at hr
        simp only [if_true] at hr
        by_cases hw : writeOk = true
        · subst hw
          simp only [if_true] at hr
          rcases mem_updateFirstMatch uri2 dur2
              (points.filter (fun p => p.id != pointId))
              (getRecordings stored) r hr with hmem | hpts
          · exact hstored r (mem_sortByCreatedAtDesc.mp hmem)
          · rw [hpts]
            exact normalizePoints_ne_some_nil _
        · have hwf : writeOk = false := by
            cases writeOk
            · rfl
            · exact absurd rfl hw
          subst hwf
          simp only [Bool.false_eq_true, if_false] at hr
          exact hstored r hr
      · have hff : (updateFirstMatch uri2 dur2
            (points.filter (fun p => p.id != pointId))
            (getRecordings stored)).2 = false := by
          cases hmatch : (updateFirstMatch uri2 dur2
              (points.filter (fun p => p.id != pointId)) (getRecordings stored)).2
          · rfl
          · exact absurd hmatch hfound
        rw [hff] at hr
        simp only [Bool.false_eq_true, if_false] at hr
        exact hstored r hr
    · have hsf : (isSaved && hasResult) = false := by
        cases h : (isSaved && hasResult)
        · rfl
        · exact absurd h hsaved
      rw [hsf] at hr
      simp only [Bool.false_eq_true, if_false] at hr
      exact hstored r hr

/-- C8, witness: saving with an empty extracted list and syncing a
removal that empties the list, on a concrete collection, leave no record
with an empty `actionablePoints` list. -/
theorem persisted_actionablePoints_never_empty_witness :
    (∀ r ∈ ([] : List SavedRecording), r.actionablePoints ≠ some []) ∧
      ((handleSaveData "" "1/1/2024" "file://a.m4a" 65000 none
          []).actionablePoints ≠ some [] ∧
        (∀ r ∈ (saveRecording
            (handleSaveData "" "1/1/2024" "file://a.m4a" 65000 none [])
            7 []).2, r.actionablePoints ≠ some []) ∧
        (∀ r ∈ (deleteActionablePoint "p1" [] true true "file://a.m4a" 65000
            [] true).store, r.actionablePoints ≠ some [])) :=
  ⟨fun r hr => absurd hr (List.not_mem_nil r),
    persisted_actionablePoints_never_empty "" "1/1/2024" "file://a.m4a" 65000
      none [] 7 [] (fun r hr => absurd hr (List.not_mem_nil r))
      "p1" [] true true "file://a.m4a" 65000 true⟩

/-- C9: replacing the actionable-point list is wholesale: after two
successive successful extractions the list equals exactly the second
response, and every surviving element comes from the second response —
nothing from the first is merged in. -/
theorem extractActionablePoints_wholesale
    (ps1 ps2 current : List ActionablePoint) :
    extractActionablePoints (.ok ps2)
        (extractActionablePoints (.ok ps1) current) = ps2 ∧
      ∀ p ∈ extractActionablePoints (.ok ps2)
        (extractActionablePoints (.ok ps1) current), p ∈ ps2 :=
  ⟨rfl, fun _ hp => hp⟩

/-- C10: for a non-negative duration `d` (seconds), the synthetic
waveform has exactly `min 100 ⌊d / 0.1⌋` amplitudes, each in the
half-open interval `[0.1, 0.9)` provided the random source stays in
`[0, 1)`; in particular a duration below `0.1` yields the empty list. -/
theorem generateWaveformData_spec (d : ℚ) (rand : Nat → ℚ)
    (hd : 0 ≤ d) (hr : ∀ i, 0 ≤ rand i ∧ rand i < 1) :
    (generateWaveformData d rand).length =
      min 100 (⌊d / (1 / 10 : ℚ)⌋.toNat) ∧
      (∀ a ∈ generateWaveformData d rand, 1 / 10 ≤ a ∧ a < 9 / 10) ∧
      (d < 1 / 10 → generateWaveformData d rand = []) := by
  have hfloor : 0 ≤ ⌊d / (1 / 10 : ℚ)⌋ := by
    apply Int.floor_nonneg.mpr
    positivity
  refine ⟨?_, ?_, ?_⟩
  · simp only [generateWaveformData, List.length_map, List.length_range]
    omega
  · intro a ha
    simp only [generateWaveformData, List.mem_map, List.mem_range] at ha
    obtain ⟨i, _, rfl⟩ := ha
    obtain ⟨h0, h1⟩ := hr i
    constructor
    · nlinarith
    · nlinarith
  · intro hlt
    have hzero : ⌊d / (1 / 10 : ℚ)⌋ = 0 := by
      rw [Int.floor_eq_zero_iff]
      constructor
      · positivity
      · rw [div_lt_one (by norm_num)]
        exact hlt
    simp only [generateWaveformData]
    rw [hzero]
    simp

/-- C10, witness: a 2-second duration with a constant random source of
1/2 yields 20 amplitudes, all inside `[0.1, 0.9)`. -/
theorem generateWaveformData_spec_witness :
    (0 : ℚ) ≤ 2 ∧ (∀ i : Nat, 0 ≤ (1 / 2 : ℚ) ∧ (1 / 2 : ℚ) < 1) ∧
      ((generateWaveformData 2 (fun _ => 1 / 2)).length =
          min 100 (⌊(2 : ℚ) / (1 / 10 : ℚ)⌋.toNat) ∧
        (∀ a ∈ generateWaveformData 2 (fun _ => 1 / 2),
          1 / 10 ≤ a ∧ a < 9 / 10) ∧
        ((2 : ℚ) < 1 / 10 → generateWaveformData 2 (fun _ => 1 / 2) = [])) :=
  ⟨by norm_num, fun _ => by norm_num,
    generateWaveformData_spec 2 (fun _ => 1 / 2) (by norm_num)
      (fun _ => by norm_num)⟩

end MeetingRec
